import Mathlib

/-!
Verification development for the video-downloader backend (src/app.py).

The repository is a Flask service around an external extraction engine
(yt-dlp).  Its own logic — filename sanitization, file-size formatting,
stale-file eviction, URL validation and platform classification, the
per-request download job (unique id, provisional file, overwrite-then-rename),
and the file-serving endpoint — is embedded shallowly below.

Modelling conventions:
  * Python strings are `List Char`; labels and formatted output are `String`.
  * The scratch directory (`downloads/`, listed with `os.listdir`) is a
    `List` of filenames (for eviction, of `DirEntry` records carrying the
    metadata `os.path.isfile` / `os.path.getmtime` inspect); listing order
    models `os.listdir` order.
  * `uuid.uuid4().hex[:8]` is a parameter constrained by `hexUid`
    (eight lowercase hexadecimal characters).
  * Python regexes used by the code are literal-alternation or
    character-class regexes and are embedded as the corresponding
    substring / character-set operations.  `\s` is modelled by its ASCII
    members, which is all the claims exercise.
  * Floating-point file sizes: every value reached by the code's
    repeated division by 1024 of an integer below 2^53 is exactly
    representable, and Python's `f"{x:.2f}"` is correct rounding
    (half-even) of that exact value, so the formatter is embedded with
    exact natural-number arithmetic and half-even rounding.
-/

/-- Characters matched by the character class `[<>:"/\\|?*]` that the first
`re.sub` in `sanitize_filename` removes (app.py line 86). -/
def forbiddenChar (c : Char) : Bool :=
  c == '<' || c == '>' || c == ':' || c == '"' || c == '/' || c == '\\' ||
  c == '|' || c == '?' || c == '*'

/-- ASCII whitespace matched by the regex `\s` and by Python `str.strip()`. -/
def isWsChar (c : Char) : Bool :=
  c == ' ' || c == '\t' || c == '\n' || c == '\r' || c == '\x0b' || c == '\x0c'

/-- Model of `re.sub(r'[<>:"/\\|?*]', '', s)` (app.py line 86). -/
def removeForbidden (s : List Char) : List Char :=
  s.filter (fun c => !forbiddenChar c)

/-- First half of `re.sub(r'\s+', ' ', s)`: each whitespace character becomes
a space. -/
def wsToSpace (s : List Char) : List Char :=
  s.map (fun c => if isWsChar c then ' ' else c)

/-- Second half of `re.sub(r'\s+', ' ', s)`: each run of spaces collapses to
a single space. -/
def squeezeSpaces : List Char → List Char
  | [] => []
  | [c] => [c]
  | a :: b :: rest =>
      if a = ' ' ∧ b = ' ' then squeezeSpaces (b :: rest)
      else a :: squeezeSpaces (b :: rest)

/-- Model of `re.sub(r'\s+', ' ', s)` (app.py line 87). -/
def collapseWs (s : List Char) : List Char :=
  squeezeSpaces (wsToSpace s)

/-- Leading-whitespace removal, the left half of Python `str.strip()`. -/
def lstrip (s : List Char) : List Char :=
  s.dropWhile isWsChar

/-- Trailing-whitespace removal, the right half of Python `str.strip()`. -/
def rstrip (s : List Char) : List Char :=
  (s.reverse.dropWhile isWsChar).reverse

/-- Model of Python `str.strip()` (app.py line 87). -/
def pyStrip (s : List Char) : List Char :=
  rstrip (lstrip s)

/-- Model of `s.replace('|', '-')` (app.py line 88). -/
def replaceBar (s : List Char) : List Char :=
  s.map (fun c => if c = '|' then '-' else c)

/-- Model of `s.replace('/', '-')` (app.py line 88). -/
def replaceSlash (s : List Char) : List Char :=
  s.map (fun c => if c = '/' then '-' else c)

/-- Lowercase hexadecimal digit, the alphabet of `uuid.uuid4().hex`. -/
def isHexLowerChar (c : Char) : Bool :=
  "0123456789abcdef".data.any (fun d => d == c)

/-- Constraint satisfied by every token `uuid.uuid4().hex[:8]` the code
mints: eight lowercase hexadecimal characters. -/
def hexUid (uid : List Char) : Prop :=
  uid.length = 8 ∧ ∀ c ∈ uid, isHexLowerChar c = true

instance decidableHexUid (u : List Char) : Decidable (hexUid u) :=
  inferInstanceAs (Decidable (_ ∧ _))

/-- Fallback name `f"video_{uuid.uuid4().hex[:8]}.mp4"` (app.py lines 84, 89);
the random token is the `uid` parameter. -/
def fallback_name (uid : List Char) : List Char :=
  "video_".data ++ (uid ++ ".mp4".data)

/-- Transformation pipeline of `sanitize_filename` between the emptiness
checks: remove reserved characters, collapse whitespace runs to single
spaces, strip, then the (always vacuous) `'|'`/`'/'` replacements
(app.py lines 86-88). -/
def sanitizeCore (filename : List Char) : List Char :=
  replaceSlash (replaceBar (pyStrip (collapseWs (removeForbidden filename))))

/-- Model of `sanitize_filename` (app.py lines 81-89).  `uid` is the random
token a fallback name would use. -/
def sanitize_filename (uid filename : List Char) : List Char :=
  if filename = [] then fallback_name uid
  else if sanitizeCore filename = [] then fallback_name uid
  else (sanitizeCore filename).take 150

/-- Rendering of `f"{size:.2f}"` for the exact value `num / den`, with
Python's round-half-even tie behaviour. -/
def two_decimals (num den : Nat) : String :=
  let scaled := num * 100
  let q := scaled / den
  let r := scaled % den
  let rounded :=
    if 2 * r < den then q
    else if den < 2 * r then q + 1
    else if q % 2 = 0 then q else q + 1
  let ip := rounded / 100
  let fp := rounded % 100
  toString ip ++ "." ++ (if fp < 10 then "0" ++ toString fp else toString fp)

/-- Model of `format_file_size` (app.py lines 91-100), its division loop
unrolled: `none` models a falsy (`None`/missing) size. -/
def format_file_size (size_bytes : Option Nat) : String :=
  match size_bytes with
  | none => "0 B"
  | some n =>
    if n = 0 then "0 B"
    else if n < 1024 then two_decimals n 1 ++ " B"
    else if n < 1024 * 1024 then two_decimals n 1024 ++ " KB"
    else if n < 1024 * 1024 * 1024 then two_decimals n (1024 * 1024) ++ " MB"
    else if n < 1024 * 1024 * 1024 * 1024 then
      two_decimals n (1024 * 1024 * 1024) ++ " GB"
    else two_decimals n (1024 * 1024 * 1024 * 1024) ++ " TB"

/-- Directory entry as `clean_old_files` observes it: `isFile` is
`os.path.isfile`, `mtime` is `os.path.getmtime`, and `removable` records
whether `os.remove` would succeed (a `False` models the `except` branch:
the deletion failure is logged and the file stays). -/
structure DirEntry where
  name : List Char
  mtime : Int
  isFile : Bool
  removable : Bool
  deriving DecidableEq

/-- Model of `clean_old_files` (app.py lines 102-112): one scan of the
directory listing; an entry disappears exactly when it is a regular file,
strictly older than `age_seconds`, and its deletion succeeds.  The function
is total: deletion failures are skipped, nothing propagates to the caller. -/
def clean_old_files (now age_seconds : Int) (dir : List DirEntry) : List DirEntry :=
  dir.filter (fun e => !(e.isFile && decide (now - e.mtime > age_seconds) && e.removable))

/-- Python `str.startswith` on character lists. -/
def isPre : List Char → List Char → Bool
  | [], _ => true
  | _ :: _, [] => false
  | a :: as, b :: bs => a == b && isPre as bs

/-- Substring occurrence check: `re.search` of a literal pattern. -/
def isSubstr (p : List Char) : List Char → Bool
  | [] => p.isEmpty
  | c :: rest => isPre p (c :: rest) || isSubstr p rest

/-- Case folding used to model `re.IGNORECASE` (all patterns are already
lowercase). -/
def lowerStr (s : List Char) : List Char :=
  s.map Char.toLower

/-- The `SUPPORTED_PLATFORMS` table (app.py lines 25-43): each regex is an
alternation of escaped literals, embedded as the list of those literals;
insertion order is preserved because `dict.items()` iterates in it. -/
def SUPPORTED_PLATFORMS : List (String × List (List Char)) :=
  [("YouTube", ["youtube.com".data, "youtu.be".data]),
   ("Facebook", ["facebook.com".data, "fb.watch".data, "fb.com".data]),
   ("Instagram", ["instagram.com".data, "instagr.am".data]),
   ("Twitter/X", ["twitter.com".data, "x.com".data]),
   ("TikTok", ["tiktok.com".data, "douyin.com".data]),
   ("Dailymotion", ["dailymotion.com".data]),
   ("Vimeo", ["vimeo.com".data]),
   ("Reddit", ["reddit.com".data]),
   ("Twitch", ["twitch.tv".data]),
   ("SoundCloud", ["soundcloud.com".data]),
   ("Bilibili", ["bilibili.com".data]),
   ("Rumble", ["rumble.com".data]),
   ("LinkedIn", ["linkedin.com".data]),
   ("Pinterest", ["pinterest.com".data]),
   ("9GAG", ["9gag.com".data]),
   ("Likee", ["likee.video".data]),
   ("Kwai", ["kwai.com".data])]

/-- Model of `get_platform_name` (app.py lines 140-145): first
case-insensitive regex hit wins, otherwise the label is `"Other"`. -/
def get_platform_name (url : List Char) : String :=
  match SUPPORTED_PLATFORMS.find? (fun pr => pr.2.any (fun pat => isSubstr pat (lowerStr url))) with
  | some pr => pr.1
  | none => "Other"

/-- Model of `urllib.parse.urlparse(u).netloc` for the strings this code
feeds it, which always carry an `http://` or `https://` prefix after the
scheme-defaulting step: the host part runs to the next `/`, `?` or `#`. -/
def netlocOf (u : List Char) : List Char :=
  (if isPre ("https://".data) u then u.drop 8
   else if isPre ("http://".data) u then u.drop 7
   else []).takeWhile (fun c => !(c == '/' || c == '?' || c == '#'))

/-- Continuation of `validate_and_clean_url` after the scheme default: parse,
reject a missing host, classify (app.py lines 127-138). -/
def parse_and_classify (u : List Char) : Option (List Char) × Option String × String :=
  if netlocOf u = [] then (none, some ("Invalid URL format"), "Unknown")
  else (some u, none, get_platform_name u)

/-- Model of `validate_and_clean_url` (app.py lines 116-138): reject
empty/whitespace-only input, strip, prepend `https://` when no scheme prefix
is present, then parse and classify.  The triple mirrors the Python return
`(url, error, platform)`. -/
def validate_and_clean_url (url : List Char) : Option (List Char) × Option String × String :=
  if pyStrip url = [] then (none, some ("URL is required"), "Unknown")
  else
    parse_and_classify
      (if isPre ("http://".data) (pyStrip url) || isPre ("https://".data) (pyStrip url)
       then pyStrip url
       else "https://".data ++ pyStrip url)

/-- Python `str.endswith` on character lists. -/
def endsWith (p s : List Char) : Bool :=
  isPre p.reverse s.reverse

/-- MIME choice of `download_file` (app.py lines 702-710). -/
def mimeFor (name : List Char) : String :=
  if endsWith (".mp3".data) name then "audio/mpeg"
  else if endsWith (".m4a".data) name then "audio/mp4"
  else if endsWith (".mp4".data) name then "video/mp4"
  else "application/octet-stream"

/-- Response of the file-serving endpoint, with the fields the claims
observe.  `servedFile` is the name inside the scratch directory that
`send_file` streams (`none` on the 404 path). -/
structure FileResponse where
  status : Nat
  success : Bool
  error : Option String
  servedFile : Option (List Char)
  mime : Option String
  deriving DecidableEq

/-- Existence of `os.path.join(DOWNLOADS_DIR, name)` for a separator-free
`name` (app.py line 695): true for every regular file of the scratch
directory (`files`) and additionally for the two directory entries `.` (the
scratch directory itself) and `..` (its parent), which exist without being
stored files.  The app creates no subdirectories, so no other separator-free
name exists there without being a regular file. -/
def path_exists (files : List (List Char)) (name : List Char) : Prop :=
  name ∈ files ∨ name = ".".data ∨ name = "..".data

instance decidablePathExists (files : List (List Char)) (name : List Char) :
    Decidable (path_exists files name) :=
  inferInstanceAs (Decidable (_ ∨ _))

/-- Model of `GET /api/download-file/{filename}` (app.py lines 687-722):
sanitize the path parameter, check `os.path.exists` on the joined path,
stream the file with `send_file`, or return 404 when the path does not
exist.  `files` is the list of regular-file names in the scratch directory;
when the path exists but is not a regular file (the sanitized names `.` and
`..`), `send_file` raises and the route's `except` handler (lines 720-722)
returns HTTP 500 — its body is `"File download failed: "` followed by the
exception text, modelled by the fixed prefix.  `uid` is the token a
sanitizer fallback would use. -/
def download_file (files : List (List Char)) (uid filename : List Char) : FileResponse :=
  if path_exists files (sanitize_filename uid filename) then
    if sanitize_filename uid filename ∈ files then
      { status := 200, success := true, error := none,
        servedFile := some (sanitize_filename uid filename),
        mime := some (mimeFor (sanitize_filename uid filename)) }
    else
      { status := 500, success := false,
        error := some ("File download failed"),
        servedFile := none, mime := none }
  else
    { status := 404, success := false,
      error := some ("File not found or may have been deleted"),
      servedFile := none, mime := none }

/-- Entry of the `postprocessors` list in the yt-dlp options (app.py
lines 528-532, 556-560, 592-595). -/
inductive PostProcessor where
  | extractAudio (preferredcodec preferredquality : String)
  | videoConvert (preferedformat : String)
  deriving DecidableEq

/-- The yt-dlp option fields the claims observe: the format selector and
the post-processing chain; `outtmpl_uid` is the unique id embedded in the
output template `f'{uid}_%(title)s.%(ext)s'`. -/
structure YdlOpts where
  format : String
  outtmpl_uid : List Char
  postprocessors : List PostProcessor
  deriving DecidableEq

/-- Fixed selector the reserved alias `best` maps to (app.py line 566). -/
def best_selector : String :=
  "bestvideo[ext=mp4]+bestaudio[ext=m4a]/best[ext=mp4]/best"

/-- Fixed selector the reserved alias `worst` maps to (app.py line 568). -/
def worst_selector : String :=
  "worstvideo[ext=mp4]+worstaudio[ext=m4a]/worst[ext=mp4]/worst"

/-- Model of the yt-dlp option construction in `download` (app.py
lines 474-476 and 505-595): the `mp3`/`m4a` branches use the fixed
`bestaudio/best` selector and attach `FFmpegExtractAudio` only when FFmpeg
is available; the video branch maps `best`/`worst` to fixed selector
expressions, passes any other id through verbatim, and attaches
`FFmpegVideoConvertor` only when FFmpeg is available. -/
def build_ydl_opts (ffmpeg_available : Bool) (uid : List Char) (format_id : String) : YdlOpts :=
  if format_id == "mp3" then
    { format := "bestaudio/best", outtmpl_uid := uid,
      postprocessors :=
        if ffmpeg_available then [PostProcessor.extractAudio ("mp3") ("192")] else [] }
  else if format_id == "m4a" then
    { format := "bestaudio/best", outtmpl_uid := uid,
      postprocessors :=
        if ffmpeg_available then [PostProcessor.extractAudio ("m4a") ("128")] else [] }
  else
    { format :=
        if format_id == "best" then best_selector
        else if format_id == "worst" then worst_selector
        else format_id,
      outtmpl_uid := uid,
      postprocessors :=
        if ffmpeg_available then [PostProcessor.videoConvert ("mp4")] else [] }

/-- Fields of the success JSON of `POST /api/download` (app.py
lines 666-677) that the claims observe. -/
structure DownloadResponse where
  success : Bool
  filename : List Char
  size : String
  size_bytes : Nat
  platform : String
  has_audio : Bool
  has_video : Bool
  ffmpeg_used : Bool
  deriving DecidableEq

/-- Model of the success-response construction of `download` (app.py
lines 666-677): `has_audio` is the literal `True`, `has_video` is
`not is_audio` with `is_audio = (format_id == 'mp3' or format_id == 'm4a')`
from lines 474-476. -/
def make_download_response (format_id platform : String) (final_filename : List Char)
    (file_size : Nat) (ffmpeg_available : Bool) : DownloadResponse :=
  { success := true,
    filename := final_filename,
    size := format_file_size (some file_size),
    size_bytes := file_size,
    platform := platform,
    has_audio := true,
    has_video := !(format_id == "mp3" || format_id == "m4a"),
    ffmpeg_used := ffmpeg_available }

/-- Removal of the first directory entry with a given name; `os.remove` /
the source of `os.rename` leaving the listing. -/
def eraseFile : List (List Char) → List Char → List (List Char)
  | [], _ => []
  | f :: rest, target => if f = target then rest else f :: eraseFile rest target

/-- Name of the provisional file the engine writes for an `mp3` job under
the template `f'{uid}_%(title)s.%(ext)s'` with the audio post-processor
applied (app.py line 510). -/
def provisional_name (uid title : List Char) : List Char :=
  uid ++ ('_' :: (title ++ ".mp3".data))

/-- File-location and rename phase of an `mp3` download job (app.py
lines 605-655) over a directory listing `files1` that already contains the
engine's output: collect the files whose names start with the minted unique
id, take the first, build the final display name
`sanitize_filename(sanitize_filename(title) + ".mp3")`, delete an existing
file of that name, and rename.  The empty-candidates case abstracts the
best-effort mtime fallback (lines 611-619) as `none`; it is unreachable in
the runs proved below because the provisional file is always present. -/
def locate_and_rename (uid u1 u2 : List Char) (files1 : List (List Char)) (title : List Char) :
    List (List Char) × Option (List Char) :=
  match files1.filter (fun f => isPre uid f) with
  | [] => (files1, none)
  | orig :: _ =>
      let final := sanitize_filename u2 (sanitize_filename u1 title ++ ".mp3".data)
      if orig = final then (files1, some final)
      else (eraseFile (eraseFile files1 final) orig ++ [final], some final)

/-- One `mp3` download job (app.py lines 451-677 restricted to the state of
the scratch directory): the engine appends the provisional uid-prefixed
file, then `locate_and_rename` runs.  `u1`, `u2` are the tokens the two
`sanitize_filename` calls would use for a fallback name. -/
def run_download_job_mp3 (uid u1 u2 : List Char) (files : List (List Char)) (title : List Char) :
    List (List Char) × Option (List Char) :=
  locate_and_rename uid u1 u2 (files ++ [provisional_name uid title]) title

/-- Adjacent-duplicate-space freedom: the invariant `squeezeSpaces`
establishes and every later pipeline stage preserves. -/
def noDoubles : List Char → Bool
  | [] => true
  | [_] => true
  | a :: b :: rest => !(a == ' ' && b == ' ') && noDoubles (b :: rest)

/-- Concrete 151-character input whose sanitized form ends in a space:
149 letters, a space, then one letter. -/
def xLong : List Char :=
  List.replicate 149 'a' ++ " b".data

/-- Concrete hexadecimal token used in closed statements. -/
def uidW : List Char :=
  "abcd1234".data

/-- Concrete directory used by the eviction witness. -/
def dirEx : List DirEntry :=
  [⟨"old.mp4".data, 0, true, true⟩,
   ⟨"new.mp4".data, 9000, true, true⟩,
   ⟨"stuck.mp4".data, 0, true, false⟩,
   ⟨"sub".data, 0, false, true⟩]

/-! ### Generic list helpers -/

theorem map_eq_self_of {f : Char → Char} {l : List Char} (h : ∀ c ∈ l, f c = c) :
    l.map f = l := by
  induction l with
  | nil => rfl
  | cons a t ih =>
      rw [List.map_cons, h a (List.mem_cons_self a t),
        ih (fun c hc => h c (List.mem_cons_of_mem a hc))]

theorem mem_of_mem_dropWhile {p : Char → Bool} {l : List Char} {c : Char}
    (h : c ∈ l.dropWhile p) : c ∈ l := by
  induction l with
  | nil => simp at h
  | cons a t ih =>
      rw [List.dropWhile_cons] at h
      split at h
      · exact List.mem_cons_of_mem a (ih h)
      · exact h

theorem dropWhile_head?_false {p : Char → Bool} {l : List Char} {c : Char}
    (h : (l.dropWhile p).head? = some c) : p c = false := by
  induction l with
  | nil => simp at h
  | cons a t ih =>
      rw [List.dropWhile_cons] at h
      split at h
      · exact ih h
      · next hp =>
          simp only [List.head?_cons, Option.some.injEq] at h
          subst h
          simpa using hp

theorem head?_append_ne {l t : List Char} (h : l ≠ []) :
    (l ++ t).head? = l.head? := by
  cases l with
  | nil => exact absurd rfl h
  | cons a l' => rfl

theorem take_of_le_len {l : List Char} {n : Nat} (h : l.length ≤ n) : l.take n = l :=
  List.take_of_length_le h

/-! ### noDoubles: adjacent double spaces are absent -/

theorem noDoubles_tail {a : Char} {l : List Char} (h : noDoubles (a :: l) = true) :
    noDoubles l = true := by
  cases l with
  | nil => rfl
  | cons b t =>
      simp only [noDoubles, Bool.and_eq_true] at h
      exact h.2

theorem noDoubles_append_right {l m : List Char} (h : noDoubles (l ++ m) = true) :
    noDoubles m = true := by
  induction l with
  | nil => exact h
  | cons a t ih =>
      rw [List.cons_append] at h
      exact ih (noDoubles_tail h)

theorem noDoubles_append_left {l m : List Char} (h : noDoubles (l ++ m) = true) :
    noDoubles l = true := by
  induction l with
  | nil => rfl
  | cons a t ih =>
      cases t with
      | nil => rfl
      | cons b r =>
          rw [List.cons_append, List.cons_append] at h
          simp only [noDoubles, Bool.and_eq_true] at h ⊢
          rw [← List.cons_append] at h
          exact ⟨h.1, ih h.2⟩

theorem noDoubles_of_no_space {l : List Char} (h : ∀ c ∈ l, (c == ' ') = false) :
    noDoubles l = true := by
  induction l with
  | nil => rfl
  | cons a t ih =>
      cases t with
      | nil => rfl
      | cons b r =>
          simp only [noDoubles, Bool.and_eq_true, Bool.not_eq_true']
          refine ⟨?_, ih (fun c hc => h c (List.mem_cons_of_mem a hc))⟩
          rw [h a (List.mem_cons_self a (b :: r))]
          rfl

theorem squeeze_head (b : Char) (l : List Char) :
    ∃ t, squeezeSpaces (b :: l) = b :: t := by
  induction l generalizing b with
  | nil => exact ⟨[], rfl⟩
  | cons c r ih =>
      by_cases h : b = ' ' ∧ c = ' '
      · obtain ⟨t, ht⟩ := ih c
        refine ⟨t, ?_⟩
        rw [show squeezeSpaces (b :: c :: r) = squeezeSpaces (c :: r) by
          simp [squeezeSpaces, h], ht, h.2, ← h.1]
      · exact ⟨squeezeSpaces (c :: r), by simp [squeezeSpaces, h]⟩

theorem noDoubles_squeeze (l : List Char) : noDoubles (squeezeSpaces l) = true := by
  induction l with
  | nil => rfl
  | cons a t ih =>
      cases t with
      | nil => rfl
      | cons b r =>
          by_cases h : a = ' ' ∧ b = ' '
          · rw [show squeezeSpaces (a :: b :: r) = squeezeSpaces (b :: r) by
              simp [squeezeSpaces, h]]
            exact ih
          · obtain ⟨t', ht'⟩ := squeeze_head b r
            rw [show squeezeSpaces (a :: b :: r) = a :: squeezeSpaces (b :: r) by
              simp [squeezeSpaces, h], ht']
            have h2 : noDoubles (b :: t') = true := ht' ▸ ih
            simp only [noDoubles, Bool.and_eq_true, Bool.not_eq_true']
            refine ⟨?_, h2⟩
            by_cases ha : a = ' '
            · by_cases hb : b = ' '
              · exact absurd ⟨ha, hb⟩ h
              · simp [hb]
            · simp [ha]

theorem squeeze_eq_self {l : List Char} (h : noDoubles l = true) :
    squeezeSpaces l = l := by
  induction l with
  | nil => rfl
  | cons a t ih =>
      cases t with
      | nil => rfl
      | cons b r =>
          simp only [noDoubles, Bool.and_eq_true, Bool.not_eq_true',
            Bool.and_eq_false_iff, beq_eq_false_iff_ne] at h
          have hcond : ¬(a = ' ' ∧ b = ' ') := by
            rcases h.1 with h1 | h1
            · exact fun hc => h1 hc.1
            · exact fun hc => h1 hc.2
          rw [show squeezeSpaces (a :: b :: r) = a :: squeezeSpaces (b :: r) by
            simp [squeezeSpaces, hcond]]
          congr 1
          apply ih
          simp only [noDoubles, Bool.and_eq_true] at *
          rcases r with _ | ⟨c, r'⟩
          · rfl
          · exact h.2

theorem mem_squeeze {c : Char} {l : List Char} (h : c ∈ squeezeSpaces l) : c ∈ l := by
  induction l with
  | nil => simp [squeezeSpaces] at h
  | cons a t ih =>
      cases t with
      | nil => simpa [squeezeSpaces] using h
      | cons b r =>
          by_cases hc : a = ' ' ∧ b = ' '
          · rw [show squeezeSpaces (a :: b :: r) = squeezeSpaces (b :: r) by
              simp [squeezeSpaces, hc]] at h
            exact List.mem_cons_of_mem a (ih h)
          · rw [show squeezeSpaces (a :: b :: r) = a :: squeezeSpaces (b :: r) by
              simp [squeezeSpaces, hc]] at h
            rcases List.mem_cons.mp h with rfl | h'
            · exact List.mem_cons_self c (b :: r)
            · exact List.mem_cons_of_mem a (ih h')

theorem length_squeeze_le (l : List Char) : (squeezeSpaces l).length ≤ l.length := by
  induction l with
  | nil => simp [squeezeSpaces]
  | cons a t ih =>
      cases t with
      | nil => simp [squeezeSpaces]
      | cons b r =>
          by_cases hc : a = ' ' ∧ b = ' '
          · rw [show squeezeSpaces (a :: b :: r) = squeezeSpaces (b :: r) by
              simp [squeezeSpaces, hc]]
            exact le_trans ih (by simp)
          · rw [show squeezeSpaces (a :: b :: r) = a :: squeezeSpaces (b :: r) by
              simp [squeezeSpaces, hc]]
            simpa using ih

/-! ### Strip lemmas -/

theorem mem_pyStrip {c : Char} {l : List Char} (h : c ∈ pyStrip l) : c ∈ l := by
  unfold pyStrip rstrip lstrip at h
  have h1 := List.mem_reverse.mp h
  have h2 := List.mem_reverse.mp (mem_of_mem_dropWhile h1)
  exact mem_of_mem_dropWhile h2

theorem lstrip_append_back (s : List Char) :
    s = s.takeWhile isWsChar ++ lstrip s := by
  rw [lstrip, List.takeWhile_append_dropWhile]

theorem rstrip_append_back (s : List Char) :
    s = rstrip s ++ (s.reverse.takeWhile isWsChar).reverse := by
  conv_lhs => rw [← List.reverse_reverse s]
  conv_lhs => rw [← List.takeWhile_append_dropWhile isWsChar s.reverse]
  rw [List.reverse_append]
  rfl

theorem noDoubles_lstrip {s : List Char} (h : noDoubles s = true) :
    noDoubles (lstrip s) = true := by
  have := lstrip_append_back s
  exact noDoubles_append_right (this ▸ h)

theorem noDoubles_rstrip {s : List Char} (h : noDoubles s = true) :
    noDoubles (rstrip s) = true := by
  have := rstrip_append_back s
  exact noDoubles_append_left (this ▸ h)

theorem noDoubles_pyStrip {s : List Char} (h : noDoubles s = true) :
    noDoubles (pyStrip s) = true :=
  noDoubles_rstrip (noDoubles_lstrip h)

theorem noDoubles_take (n : Nat) {l : List Char} (h : noDoubles l = true) :
    noDoubles (l.take n) = true := by
  apply noDoubles_append_left (m := l.drop n)
  rw [List.take_append_drop]
  exact h

theorem pyStrip_head_not_ws {s : List Char} {c : Char}
    (h : (pyStrip s).head? = some c) : isWsChar c = false := by
  have h' : (rstrip (lstrip s)).head? = some c := h
  have hne : rstrip (lstrip s) ≠ [] := by
    intro he
    rw [he] at h'
    exact Option.noConfusion h'
  have h2 : (lstrip s).head? = some c := by
    conv_lhs => rw [rstrip_append_back (lstrip s)]
    rw [head?_append_ne hne]
    exact h'
  exact dropWhile_head?_false h2

theorem pyStrip_last_not_ws {s : List Char} {c : Char}
    (h : (pyStrip s).reverse.head? = some c) : isWsChar c = false := by
  unfold pyStrip rstrip at h
  rw [List.reverse_reverse] at h
  exact dropWhile_head?_false h

theorem lstrip_eq_self {l : List Char}
    (h : ∀ c, l.head? = some c → isWsChar c = false) : lstrip l = l := by
  cases l with
  | nil => rfl
  | cons a t =>
      unfold lstrip
      rw [List.dropWhile_cons, if_neg]
      simp [h a rfl]

theorem rstrip_eq_self {l : List Char}
    (h : ∀ c, l.reverse.head? = some c → isWsChar c = false) : rstrip l = l := by
  unfold rstrip
  have : l.reverse.dropWhile isWsChar = l.reverse := by
    cases hr : l.reverse with
    | nil => rfl
    | cons a t =>
        rw [List.dropWhile_cons, if_neg]
        simp [h a (by rw [hr]; rfl)]
  rw [this, List.reverse_reverse]

theorem length_lstrip_le (s : List Char) : (lstrip s).length ≤ s.length := by
  conv_rhs => rw [lstrip_append_back s]
  simp

theorem length_rstrip_le (s : List Char) : (rstrip s).length ≤ s.length := by
  conv_rhs => rw [rstrip_append_back s]
  simp

theorem length_pyStrip_le (s : List Char) : (pyStrip s).length ≤ s.length :=
  le_trans (length_rstrip_le (lstrip s)) (length_lstrip_le s)

/-! ### Character classes of the sanitizer pipeline -/

theorem hex_all_benign :
    "0123456789abcdef".data.all
      (fun d => !forbiddenChar d && !isWsChar d && !(d == ' ')) = true := by decide

theorem hex_not_forbidden {c : Char} (h : isHexLowerChar c = true) :
    forbiddenChar c = false := by
  unfold isHexLowerChar at h
  rw [List.any_eq_true] at h
  obtain ⟨d, hd, hdc⟩ := h
  rw [beq_iff_eq] at hdc
  subst hdc
  have := (List.all_eq_true.mp hex_all_benign) d hd
  simp only [Bool.and_eq_true, Bool.not_eq_true'] at this
  exact this.1.1

theorem hex_not_ws {c : Char} (h : isHexLowerChar c = true) :
    isWsChar c = false := by
  unfold isHexLowerChar at h
  rw [List.any_eq_true] at h
  obtain ⟨d, hd, hdc⟩ := h
  rw [beq_iff_eq] at hdc
  subst hdc
  have := (List.all_eq_true.mp hex_all_benign) d hd
  simp only [Bool.and_eq_true, Bool.not_eq_true'] at this
  exact this.1.2

theorem mem_strip_chain {c : Char} {x : List Char}
    (h : c ∈ pyStrip (collapseWs (removeForbidden x))) :
    c = ' ' ∨ (c ∈ x ∧ isWsChar c = false ∧ forbiddenChar c = false) := by
  have h1 : c ∈ collapseWs (removeForbidden x) := mem_pyStrip h
  have h2 : c ∈ wsToSpace (removeForbidden x) := mem_squeeze h1
  unfold wsToSpace at h2
  obtain ⟨b, hb, hbc⟩ := List.mem_map.mp h2
  by_cases hw : isWsChar b = true
  · left
    rw [if_pos hw] at hbc
    exact hbc.symm
  · right
    rw [if_neg hw] at hbc
    subst hbc
    unfold removeForbidden at hb
    have := List.mem_filter.mp hb
    refine ⟨this.1, by simpa using hw, by simpa using this.2⟩

theorem core_eq_strip (x : List Char) :
    sanitizeCore x = pyStrip (collapseWs (removeForbidden x)) := by
  unfold sanitizeCore
  have hBar : replaceBar (pyStrip (collapseWs (removeForbidden x)))
      = pyStrip (collapseWs (removeForbidden x)) := by
    apply map_eq_self_of
    intro c hc
    rcases mem_strip_chain hc with rfl | ⟨_, _, hforb⟩
    · rfl
    · rw [if_neg]
      intro hbar
      rw [hbar] at hforb
      exact absurd hforb (by decide)
  rw [hBar]
  apply map_eq_self_of
  intro c hc
  rcases mem_strip_chain hc with rfl | ⟨_, _, hforb⟩
  · rfl
  · rw [if_neg]
    intro hsl
    rw [hsl] at hforb
    exact absurd hforb (by decide)

theorem mem_core {c : Char} {x : List Char} (h : c ∈ sanitizeCore x) :
    c = ' ' ∨ (c ∈ x ∧ isWsChar c = false ∧ forbiddenChar c = false) :=
  mem_strip_chain (core_eq_strip x ▸ h)

theorem core_no_forbidden {c : Char} {x : List Char} (h : c ∈ sanitizeCore x) :
    forbiddenChar c = false := by
  rcases mem_core h with rfl | ⟨_, _, hforb⟩
  · rfl
  · exact hforb

theorem core_ws_space {c : Char} {x : List Char} (h : c ∈ sanitizeCore x)
    (hw : isWsChar c = true) : c = ' ' := by
  rcases mem_core h with rfl | ⟨_, hws, _⟩
  · rfl
  · rw [hws] at hw
    exact absurd hw (by decide)

theorem noDoubles_core (x : List Char) : noDoubles (sanitizeCore x) = true := by
  rw [core_eq_strip]
  exact noDoubles_pyStrip (noDoubles_squeeze _)

theorem core_head_not_ws {x : List Char} {c : Char}
    (h : (sanitizeCore x).head? = some c) : isWsChar c = false := by
  rw [core_eq_strip] at h
  exact pyStrip_head_not_ws h

theorem core_last_not_ws {x : List Char} {c : Char}
    (h : (sanitizeCore x).reverse.head? = some c) : isWsChar c = false := by
  rw [core_eq_strip] at h
  exact pyStrip_last_not_ws h

theorem length_core_le (x : List Char) : (sanitizeCore x).length ≤ x.length := by
  rw [core_eq_strip]
  have h1 : (collapseWs (removeForbidden x)).length ≤ (removeForbidden x).length := by
    unfold collapseWs
    refine le_trans (length_squeeze_le _) ?_
    rw [wsToSpace, List.length_map]
  have h2 : (removeForbidden x).length ≤ x.length := by
    unfold removeForbidden
    exact List.length_filter_le _ x
  exact le_trans (length_pyStrip_le _) (le_trans h1 h2)

/-! ### Stability of sanitized names under a second sanitizer pass -/

theorem core_eq_self {y : List Char}
    (hforb : ∀ c ∈ y, forbiddenChar c = false)
    (hws : ∀ c ∈ y, isWsChar c = true → c = ' ')
    (hnd : noDoubles y = true)
    (hhead : ∀ c, y.head? = some c → isWsChar c = false)
    (hlast : ∀ c, y.reverse.head? = some c → isWsChar c = false) :
    sanitizeCore y = y := by
  have hR : removeForbidden y = y := by
    unfold removeForbidden
    rw [List.filter_eq_self]
    intro c hc
    simp [hforb c hc]
  have hW : wsToSpace y = y := by
    apply map_eq_self_of
    intro c hc
    by_cases hw : isWsChar c = true
    · rw [if_pos hw, hws c hc hw]
    · rw [if_neg hw]
  have hQ : squeezeSpaces y = y := squeeze_eq_self hnd
  have hL : lstrip y = y := lstrip_eq_self hhead
  have hRs : rstrip y = y := rstrip_eq_self hlast
  have hB : replaceBar y = y := by
    apply map_eq_self_of
    intro c hc
    rw [if_neg]
    intro hbar
    have := hforb c hc
    rw [hbar] at this
    exact absurd this (by decide)
  have hS : replaceSlash y = y := by
    apply map_eq_self_of
    intro c hc
    rw [if_neg]
    intro hsl
    have := hforb c hc
    rw [hsl] at this
    exact absurd this (by decide)
  unfold sanitizeCore collapseWs pyStrip
  rw [hR, hW, hQ, hL, hRs, hB, hS]

theorem sanitize_eq_self (u : List Char) {y : List Char} (hne : y ≠ [])
    (hforb : ∀ c ∈ y, forbiddenChar c = false)
    (hws : ∀ c ∈ y, isWsChar c = true → c = ' ')
    (hnd : noDoubles y = true)
    (hhead : ∀ c, y.head? = some c → isWsChar c = false)
    (hlast : ∀ c, y.reverse.head? = some c → isWsChar c = false)
    (hlen : y.length ≤ 150) :
    sanitize_filename u y = y := by
  have hcore : sanitizeCore y = y := core_eq_self hforb hws hnd hhead hlast
  unfold sanitize_filename
  rw [if_neg hne, hcore, if_neg hne]
  exact take_of_le_len hlen

/-! ### Facts about the fallback name -/

theorem mem_fallback {c : Char} {u : List Char} (h : c ∈ fallback_name u) :
    c ∈ "video_".data ∨ c ∈ u ∨ c ∈ ".mp4".data := by
  unfold fallback_name at h
  rcases List.mem_append.mp h with h1 | h1
  · exact Or.inl h1
  · rcases List.mem_append.mp h1 with h2 | h2
    · exact Or.inr (Or.inl h2)
    · exact Or.inr (Or.inr h2)

theorem fallback_no_forbidden {c : Char} {u : List Char} (hu : hexUid u)
    (h : c ∈ fallback_name u) : forbiddenChar c = false := by
  rcases mem_fallback h with h1 | h1 | h1
  · have : "video_".data.all (fun d => !forbiddenChar d) = true := by decide
    simpa using (List.all_eq_true.mp this) c h1
  · exact hex_not_forbidden (hu.2 c h1)
  · have : ".mp4".data.all (fun d => !forbiddenChar d) = true := by decide
    simpa using (List.all_eq_true.mp this) c h1

theorem fallback_no_ws {c : Char} {u : List Char} (hu : hexUid u)
    (h : c ∈ fallback_name u) : isWsChar c = false := by
  rcases mem_fallback h with h1 | h1 | h1
  · have : "video_".data.all (fun d => !isWsChar d) = true := by decide
    simpa using (List.all_eq_true.mp this) c h1
  · exact hex_not_ws (hu.2 c h1)
  · have : ".mp4".data.all (fun d => !isWsChar d) = true := by decide
    simpa using (List.all_eq_true.mp this) c h1

theorem fallback_length {u : List Char} (hu : hexUid u) :
    (fallback_name u).length = 18 := by
  unfold fallback_name
  rw [List.length_append, List.length_append, hu.1]
  rfl

theorem fallback_ne_nil {u : List Char} (hu : hexUid u) : fallback_name u ≠ [] := by
  intro h
  have := congrArg List.length h
  rw [fallback_length hu] at this
  exact absurd this (by decide)

theorem fallback_head {u : List Char} : (fallback_name u).head? = some 'v' := rfl

theorem fallback_last {u : List Char} : (fallback_name u).reverse.head? = some '4' := by
  unfold fallback_name
  rw [List.reverse_append, List.reverse_append]
  rw [show (".mp4".data).reverse = ['4', 'p', 'm', '.'] from rfl]
  rfl

theorem fallback_stable (u' : List Char) {u : List Char} (hu : hexUid u) :
    sanitize_filename u' (fallback_name u) = fallback_name u := by
  apply sanitize_eq_self u' (fallback_ne_nil hu)
  · exact fun c hc => fallback_no_forbidden hu hc
  · intro c hc hw
    rw [fallback_no_ws hu hc] at hw
    exact absurd hw (by decide)
  · apply noDoubles_of_no_space
    intro c hc
    have := fallback_no_ws hu hc
    by_cases hcs : c = ' '
    · rw [hcs] at this
      exact absurd this (by decide)
    · simpa using hcs
  · intro c hc
    rw [fallback_head] at hc
    cases hc
    rfl
  · intro c hc
    rw [fallback_last] at hc
    cases hc
    rfl
  · rw [fallback_length hu]
    decide

/-! ### Length and character bounds of every sanitized name -/

theorem sanitize_length_le (u x : List Char) (hu : hexUid u) :
    (sanitize_filename u x).length ≤ 150 := by
  unfold sanitize_filename
  split
  · rw [fallback_length hu]
    decide
  · split
    · rw [fallback_length hu]
      decide
    · exact le_trans (List.length_take_le 150 _) (by decide)

theorem sanitize_no_forbidden (u x : List Char) (hu : hexUid u) :
    ∀ c ∈ sanitize_filename u x, forbiddenChar c = false := by
  intro c hc
  unfold sanitize_filename at hc
  split at hc
  · exact fallback_no_forbidden hu hc
  · split at hc
    · exact fallback_no_forbidden hu hc
    · exact core_no_forbidden (List.take_subset 150 _ hc)

/-! ### Claim C1 -/

theorem sanitize_idem_of_short (u1 u2 x : List Char) (h1 : hexUid u1)
    (hx : x.length ≤ 150) :
    sanitize_filename u2 (sanitize_filename u1 x) = sanitize_filename u1 x := by
  by_cases hxe : x = []
  · have : sanitize_filename u1 x = fallback_name u1 := by
      unfold sanitize_filename
      rw [if_pos hxe]
    rw [this]
    exact fallback_stable u2 h1
  · by_cases hce : sanitizeCore x = []
    · have : sanitize_filename u1 x = fallback_name u1 := by
        unfold sanitize_filename
        rw [if_neg hxe, if_pos hce]
      rw [this]
      exact fallback_stable u2 h1
    · have hcl : (sanitizeCore x).length ≤ 150 := le_trans (length_core_le x) hx
      have hs : sanitize_filename u1 x = sanitizeCore x := by
        unfold sanitize_filename
        rw [if_neg hxe, if_neg hce]
        exact take_of_le_len hcl
      rw [hs]
      apply sanitize_eq_self u2 hce
      · exact fun c hcm => core_no_forbidden hcm
      · exact fun c hcm hw => core_ws_space hcm hw
      · exact noDoubles_core x
      · exact fun c hcm => core_head_not_ws hcm
      · exact fun c hcm => core_last_not_ws hcm
      · exact hcl

/-- C1, amended.  `sanitize_filename` always emits a name of length at most
150 containing none of the reserved characters, and it is idempotent on
every input of length at most 150; for longer inputs the 150-character
truncation can end the name on a space that a second pass would strip
(see `C1_counterexample`). -/
theorem C1_sanitize (u1 u2 x : List Char) (h1 : hexUid u1) :
    (sanitize_filename u1 x).length ≤ 150 ∧
    (∀ c ∈ sanitize_filename u1 x, forbiddenChar c = false) ∧
    (x.length ≤ 150 →
      sanitize_filename u2 (sanitize_filename u1 x) = sanitize_filename u1 x) :=
  ⟨sanitize_length_le u1 x h1, sanitize_no_forbidden u1 x h1,
   fun hx => sanitize_idem_of_short u1 u2 x h1 hx⟩

/-- Witness for C1 at a concrete input exercising removal, collapsing and
idempotence. -/
theorem C1_sanitize_witness :
    hexUid uidW ∧
    ((sanitize_filename uidW ("My <Video>: 1/2?".data)).length ≤ 150 ∧
     (∀ c ∈ sanitize_filename uidW ("My <Video>: 1/2?".data), forbiddenChar c = false) ∧
     (("My <Video>: 1/2?".data).length ≤ 150 →
       sanitize_filename uidW (sanitize_filename uidW ("My <Video>: 1/2?".data)) =
         sanitize_filename uidW ("My <Video>: 1/2?".data))) :=
  ⟨by decide, C1_sanitize uidW uidW ("My <Video>: 1/2?".data) (by decide)⟩

/-- C1, counterexample to the idempotence conjunct as stated: on the
151-character input `xLong` (149 letters, a space, one letter) the sanitizer
truncates to 150 characters ending in a space, and a second pass strips that
space, so `sanitize` of the sanitized name differs from it. -/
theorem C1_counterexample :
    sanitize_filename uidW (sanitize_filename uidW xLong) ≠ sanitize_filename uidW xLong := by
  decide

/-! ### Claim C3 -/

/-- C3.  Sanitization removes every path separator, so the lookup name for
`GET /api/download-file/{filename}` — even for a parameter containing
`../` — has no path-traversal effect, and any file the endpoint serves is a
member of the scratch-directory listing whose name contains no separator. -/
theorem C3_no_path_traversal (files : List (List Char)) (uid filename : List Char)
    (hu : hexUid uid) :
    (∀ c ∈ sanitize_filename uid filename, c ≠ '/' ∧ c ≠ '\\') ∧
    (∀ f, (download_file files uid filename).servedFile = some f →
      f ∈ files ∧ ∀ c ∈ f, c ≠ '/' ∧ c ≠ '\\') := by
  have hmain : ∀ c ∈ sanitize_filename uid filename, c ≠ '/' ∧ c ≠ '\\' := by
    intro c hc
    have hforb := sanitize_no_forbidden uid filename hu c hc
    constructor
    · rintro rfl
      exact absurd hforb (by decide)
    · rintro rfl
      exact absurd hforb (by decide)
  refine ⟨hmain, fun f hf => ?_⟩
  unfold download_file at hf
  split at hf
  · split at hf
    · next hmem =>
        simp only [Option.some.injEq] at hf
        subst hf
        exact ⟨hmem, hmain⟩
    · exact absurd hf (by simp)
  · exact absurd hf (by simp)

/-- Witness for C3 at a traversal-shaped filename against an empty scratch
directory. -/
theorem C3_no_path_traversal_witness :
    (∀ c ∈ sanitize_filename ("abcd5678".data) ("../../etc/passwd".data),
       c ≠ '/' ∧ c ≠ '\\') ∧
    (∀ f, (download_file [] ("abcd5678".data) ("../../etc/passwd".data)).servedFile = some f →
       f ∈ ([] : List (List Char)) ∧ ∀ c ∈ f, c ≠ '/' ∧ c ≠ '\\') :=
  C3_no_path_traversal [] ("abcd5678".data) ("../../etc/passwd".data) (by decide)

/-! ### Claim C4 -/

/-- C4, counterexample to the exact-body conjunct: for a missing file the
endpoint does return 404 with `success:false`, but the error string is
`"File not found or may have been deleted"`, not `"File not found"`. -/
theorem C4_counterexample :
    ¬ ((download_file [] ("abcd1234".data) ("nope.mp4".data)).status = 404 ∧
       (download_file [] ("abcd1234".data) ("nope.mp4".data)).success = false ∧
       (download_file [] ("abcd1234".data) ("nope.mp4".data)).error = some ("File not found")) := by
  decide

/-- C4, amended.  When the sanitized form of the requested filename does not
exist in the scratch directory (`os.path.exists` false on the joined path),
the endpoint returns HTTP 404 with body
`{success: false, error: "File not found or may have been deleted"}` and
serves nothing.  (A sanitized name that exists without being a stored file —
`.` or `..` — is outside this hypothesis: there `send_file` fails and the
route returns HTTP 500.) -/
theorem C4_not_found (files : List (List Char)) (uid filename : List Char)
    (h : ¬ path_exists files (sanitize_filename uid filename)) :
    download_file files uid filename =
      ⟨404, false, some ("File not found or may have been deleted"), none, none⟩ := by
  unfold download_file
  rw [if_neg h]

/-- Witness for C4 on an empty scratch directory. -/
theorem C4_not_found_witness :
    download_file [] ("abcd1234".data) ("nope.mp4".data) =
      ⟨404, false, some ("File not found or may have been deleted"), none, none⟩ :=
  C4_not_found [] ("abcd1234".data) ("nope.mp4".data) (by decide)

/-! ### Claim C5 -/

/-- C5.  The size formatter returns `"0 B"` for zero or unknown input and
formats with unit steps of 1024 across `B, KB, MB, GB, TB` at two-decimal
precision; in particular the three values named by the specification. -/
theorem C5_format_file_size :
    format_file_size (some 0) = "0 B" ∧
    format_file_size none = "0 B" ∧
    format_file_size (some 1536) = "1.50 KB" ∧
    format_file_size (some 1073741824) = "1.00 GB" ∧
    format_file_size (some 1) = "1.00 B" ∧
    format_file_size (some 3670016) = "3.50 MB" ∧
    format_file_size (some 1099511627776) = "1.00 TB" := by
  refine ⟨rfl, rfl, ?_, ?_, ?_, ?_, ?_⟩ <;> decide

/-! ### Claim C6 -/

/-- C6.  One sweep of `clean_old_files` over a directory listing: a sweep of
the empty directory is a no-op; a regular file strictly older than the age
threshold whose deletion succeeds is removed; an entry that is not older
than the threshold, or whose deletion fails (the logged-and-skipped
`except` branch), or that is not a regular file, is retained.  The sweep is
a total function of the listing, so it never raises to its caller. -/
theorem C6_eviction (now age : Int) (dir : List DirEntry) :
    clean_old_files now age [] = [] ∧
    ∀ e ∈ dir,
      ((e.isFile = true ∧ now - e.mtime > age ∧ e.removable = true) →
        e ∉ clean_old_files now age dir) ∧
      (¬(now - e.mtime > age) → e ∈ clean_old_files now age dir) ∧
      (e.removable = false → e ∈ clean_old_files now age dir) ∧
      (e.isFile = false → e ∈ clean_old_files now age dir) := by
  refine ⟨rfl, fun e he => ⟨?_, ?_, ?_, ?_⟩⟩
  · rintro ⟨hf, hold, hrem⟩ hmem
    have := (List.mem_filter.mp hmem).2
    rw [hf, hrem, decide_eq_true hold] at this
    exact absurd this (by decide)
  · intro hnot
    refine List.mem_filter.mpr ⟨he, ?_⟩
    rw [decide_eq_false hnot]
    simp
  · intro hrem
    refine List.mem_filter.mpr ⟨he, ?_⟩
    rw [hrem]
    simp
  · intro hf
    refine List.mem_filter.mpr ⟨he, ?_⟩
    rw [hf]
    simp

/-- Witness for C6 on a four-entry directory: an old file goes, a fresh file
stays, an old file whose deletion fails stays. -/
theorem C6_eviction_witness :
    (⟨"old.mp4".data, 0, true, true⟩ : DirEntry) ∉ clean_old_files 10000 3600 dirEx ∧
    (⟨"new.mp4".data, 9000, true, true⟩ : DirEntry) ∈ clean_old_files 10000 3600 dirEx ∧
    (⟨"stuck.mp4".data, 0, true, false⟩ : DirEntry) ∈ clean_old_files 10000 3600 dirEx :=
  ⟨(((C6_eviction 10000 3600 dirEx).2 _ (by decide)).1) (by decide),
   (((C6_eviction 10000 3600 dirEx).2 _ (by decide)).2.1) (by decide),
   (((C6_eviction 10000 3600 dirEx).2 _ (by decide)).2.2.1) (by decide)⟩

/-! ### Claim C7 -/

/-- C7.  For every input whose stripped form is nonempty and carries no
`http://` or `https://` prefix, validation prepends `https://` before
parsing; `"example.com/x"` therefore validates successfully (classified
`"Other"`), while an empty or whitespace-only input is rejected with the
`"URL is required"` error. -/
theorem C7_url_validation :
    (∀ url : List Char, pyStrip url ≠ [] →
       isPre ("http://".data) (pyStrip url) = false →
       isPre ("https://".data) (pyStrip url) = false →
       validate_and_clean_url url = parse_and_classify ("https://".data ++ pyStrip url)) ∧
    validate_and_clean_url ("example.com/x".data) =
      (some ("https://example.com/x".data), none, "Other") ∧
    validate_and_clean_url [] = (none, some ("URL is required"), "Unknown") ∧
    validate_and_clean_url ("   ".data) = (none, some ("URL is required"), "Unknown") := by
  refine ⟨fun url h1 h2 h3 => ?_, by decide, by decide, by decide⟩
  unfold validate_and_clean_url
  rw [if_neg h1, h2, h3]
  simp

/-- Witness for C7: scheme-defaulting applied to `"example.com/x"`. -/
theorem C7_url_validation_witness :
    validate_and_clean_url ("example.com/x".data) =
      parse_and_classify ("https://".data ++ pyStrip ("example.com/x".data)) :=
  C7_url_validation.1 ("example.com/x".data) (by decide) (by decide) (by decide)

/-! ### Claim C8 -/

theorem find?_first {α : Type} {p : α → Bool} {pre : List α}
    (h : ∀ q ∈ pre, p q = false) (pr : α) (suf : List α) (hpr : p pr = true) :
    (pre ++ pr :: suf).find? p = some pr := by
  induction pre with
  | nil =>
      rw [List.nil_append]
      simp [List.find?_cons, hpr]
  | cons a t ih =>
      rw [List.cons_append, List.find?_cons, h a (List.mem_cons_self a t)]
      exact ih (fun q hq => h q (List.mem_cons_of_mem a hq))

/-- C8, counterexample to the claim as stated: classification scans the
whole URL, not the host.  `https://example.org/?x=youtu.be` has host
`example.org`, in which no table pattern occurs, yet it classifies as
`"YouTube"` (not `"Other"`); and `https://tiktok.com/v?from=youtube.com`
has a host containing the TikTok pattern, yet it classifies as `"YouTube"`
because the earlier YouTube pattern occurs in its query string. -/
theorem C8_counterexample :
    get_platform_name ("https://example.org/?x=youtu.be".data) = "YouTube" ∧
    netlocOf ("https://example.org/?x=youtu.be".data) = "example.org".data ∧
    (SUPPORTED_PLATFORMS.all fun pr => pr.2.all fun pat =>
       !isSubstr pat (lowerStr (netlocOf ("https://example.org/?x=youtu.be".data)))) = true ∧
    get_platform_name ("https://tiktok.com/v?from=youtube.com".data) = "YouTube" ∧
    isSubstr ("tiktok.com".data)
      (lowerStr (netlocOf ("https://tiktok.com/v?from=youtube.com".data))) = true := by
  refine ⟨?_, ?_, ?_, ?_, ?_⟩ <;> decide

/-- C8, amended.  Classification scans the entire URL string
case-insensitively against the ordered platform table, not only the host:
the specification's sample URLs classify as expected; a URL in which no
table pattern occurs anywhere classifies as `"Other"` rather than failing;
and in general the label is that of the first table entry one of whose
patterns occurs anywhere in the URL, so a pattern occurring only outside
the host (e.g. in the query string) still determines the label. -/
theorem C8_platform_classification :
    get_platform_name ("https://youtu.be/abc".data) = "YouTube" ∧
    get_platform_name ("https://www.tiktok.com/@u/video/1".data) = "TikTok" ∧
    get_platform_name ("https://example.org".data) = "Other" ∧
    (∀ url : List Char,
       (SUPPORTED_PLATFORMS.all fun pr => pr.2.all fun pat => !isSubstr pat (lowerStr url)) = true →
       get_platform_name url = "Other") ∧
    (∀ url : List Char, ∀ pre : List (String × List (List Char)),
       ∀ pr : String × List (List Char), ∀ suf : List (String × List (List Char)),
       SUPPORTED_PLATFORMS = pre ++ pr :: suf →
       (pr.2.any fun pat => isSubstr pat (lowerStr url)) = true →
       (∀ q ∈ pre, (q.2.any fun pat => isSubstr pat (lowerStr url)) = false) →
       get_platform_name url = pr.1) := by
  refine ⟨by decide, by decide, by decide, fun url h => ?_, fun url pre pr suf heq hpr hpre => ?_⟩
  · unfold get_platform_name
    have hnone : SUPPORTED_PLATFORMS.find?
        (fun pr => pr.2.any (fun pat => isSubstr pat (lowerStr url))) = none := by
      rw [List.find?_eq_none]
      intro pr hpr
      have h2 := List.all_eq_true.mp ((List.all_eq_true.mp h) pr hpr)
      intro hcon
      rw [List.any_eq_true] at hcon
      obtain ⟨pat, hpat, hsub⟩ := hcon
      have := h2 pat hpat
      rw [hsub] at this
      exact absurd this (by decide)
    rw [hnone]
  · unfold get_platform_name
    rw [heq, find?_first hpre pr suf hpr]

/-- Witness for C8: the no-pattern direction at `https://example.org` and
the first-match direction at the TikTok sample URL, with the table split
around its TikTok entry. -/
theorem C8_platform_classification_witness :
    get_platform_name ("https://example.org".data) = "Other" ∧
    get_platform_name ("https://www.tiktok.com/@u/video/1".data) = "TikTok" :=
  ⟨C8_platform_classification.2.2.2.1 ("https://example.org".data) (by decide),
   C8_platform_classification.2.2.2.2 ("https://www.tiktok.com/@u/video/1".data)
     (SUPPORTED_PLATFORMS.take 4) ("TikTok", ["tiktok.com".data, "douyin.com".data])
     (SUPPORTED_PLATFORMS.drop 5) (by decide) (by decide) (by decide)⟩

/-! ### Claim C9 -/

/-- C9, counterexample to the post-processing conjunct as stated: when
FFmpeg is unavailable, an `mp3` request still uses the fixed
`bestaudio/best` selector but carries no post-processing step at all. -/
theorem C9_counterexample :
    (build_ydl_opts false ("aaaa0000".data) ("mp3")).format = "bestaudio/best" ∧
    (build_ydl_opts false ("aaaa0000".data) ("mp3")).postprocessors = [] := by
  decide

/-- C9, amended.  The selector handed to the engine is the caller's
`format_id` verbatim unless it is a reserved alias: `best` and `worst` map
to fixed selector expressions, and `mp3`/`m4a` use the fixed
`bestaudio/best` selector with the audio-extraction post-processing step
attached only when FFmpeg is available. -/
theorem C9_format_selector (f : Bool) (uid : List Char) (format_id : String)
    (h1 : format_id ≠ "mp3") (h2 : format_id ≠ "m4a")
    (h3 : format_id ≠ "best") (h4 : format_id ≠ "worst") :
    (build_ydl_opts f uid format_id).format = format_id ∧
    (build_ydl_opts f uid ("best")).format = best_selector ∧
    (build_ydl_opts f uid ("worst")).format = worst_selector ∧
    (build_ydl_opts f uid ("mp3")).format = "bestaudio/best" ∧
    (build_ydl_opts f uid ("m4a")).format = "bestaudio/best" ∧
    (f = true →
      (build_ydl_opts f uid ("mp3")).postprocessors =
        [PostProcessor.extractAudio ("mp3") ("192")] ∧
      (build_ydl_opts f uid ("m4a")).postprocessors =
        [PostProcessor.extractAudio ("m4a") ("128")]) := by
  refine ⟨?_, rfl, rfl, rfl, rfl, ?_⟩
  · unfold build_ydl_opts
    rw [if_neg (by simpa using h1), if_neg (by simpa using h2)]
    simp only [if_neg (by simpa using h3 : ¬(format_id == "best") = true),
      if_neg (by simpa using h4 : ¬(format_id == "worst") = true)]
  · rintro rfl
    exact ⟨rfl, rfl⟩

/-- Witness for C9 at the plain engine format id `"137"` with FFmpeg
available. -/
theorem C9_format_selector_witness :
    (build_ydl_opts true ("aaaa0000".data) ("137")).format = "137" ∧
    (build_ydl_opts true ("aaaa0000".data) ("best")).format = best_selector ∧
    (build_ydl_opts true ("aaaa0000".data) ("worst")).format = worst_selector ∧
    (build_ydl_opts true ("aaaa0000".data) ("mp3")).format = "bestaudio/best" ∧
    (build_ydl_opts true ("aaaa0000".data) ("m4a")).format = "bestaudio/best" ∧
    (true = true →
      (build_ydl_opts true ("aaaa0000".data) ("mp3")).postprocessors =
        [PostProcessor.extractAudio ("mp3") ("192")] ∧
      (build_ydl_opts true ("aaaa0000".data) ("m4a")).postprocessors =
        [PostProcessor.extractAudio ("m4a") ("128")]) :=
  C9_format_selector true ("aaaa0000".data) ("137")
    (by decide) (by decide) (by decide) (by decide)

/-! ### Claim C10 -/

/-- C10.  Every success response of `POST /api/download` reports
`has_audio = true` regardless of the selected format, and reports
`has_video = true` exactly when the requested `format_id` is neither
`"mp3"` nor `"m4a"`. -/
theorem C10_response_flags (format_id platform : String) (fn : List Char)
    (fs : Nat) (f : Bool) :
    (make_download_response format_id platform fn fs f).has_audio = true ∧
    ((make_download_response format_id platform fn fs f).has_video = true ↔
      (format_id ≠ "mp3" ∧ format_id ≠ "m4a")) := by
  refine ⟨rfl, ?_⟩
  show (!(format_id == "mp3" || format_id == "m4a")) = true ↔ _
  simp only [Bool.not_eq_true', Bool.or_eq_false_iff, beq_eq_false_iff_ne, ne_eq]

/-! ### Claim C2 -/

theorem isPre_append_self (u r : List Char) : isPre u (u ++ r) = true := by
  induction u with
  | nil => rfl
  | cons a t ih => simp [isPre, ih]

theorem hexUid_not_pre {uid : List Char} {c : Char} {rest : List Char}
    (hu : hexUid uid) (hc : isHexLowerChar c = false) :
    isPre uid (c :: rest) = false := by
  obtain ⟨hlen, hhex⟩ := hu
  cases uid with
  | nil => exact absurd hlen (by decide)
  | cons a as =>
      have ha := hhex a (List.mem_cons_self a as)
      unfold isPre
      have hac : (a == c) = false := by
        rw [beq_eq_false_iff_ne]
        rintro rfl
        rw [ha] at hc
        exact Bool.noConfusion hc
      rw [hac]
      rfl

theorem sanitize_eq_core_take (u x : List Char) (hx : x ≠ []) (hc : sanitizeCore x ≠ []) :
    sanitize_filename u x = (sanitizeCore x).take 150 := by
  unfold sanitize_filename
  rw [if_neg hx, if_neg hc]

theorem sanitize_title_same (u : List Char) :
    sanitize_filename u ("Same Title".data) = "Same Title".data := by
  rw [sanitize_eq_core_take u _ (by decide) (by decide)]
  decide

theorem sanitize_final_same (u : List Char) :
    sanitize_filename u ("Same Title".data ++ ".mp3".data) = "Same Title.mp3".data := by
  rw [sanitize_eq_core_take u _ (by decide) (by decide)]
  decide

theorem locate_cons (uid u1 u2 : List Char) (files1 : List (List Char))
    (title orig : List Char) (rest : List (List Char))
    (h : files1.filter (fun f => isPre uid f) = orig :: rest) :
    locate_and_rename uid u1 u2 files1 title =
      (if orig = sanitize_filename u2 (sanitize_filename u1 title ++ ".mp3".data)
       then (files1, some (sanitize_filename u2 (sanitize_filename u1 title ++ ".mp3".data)))
       else (eraseFile (eraseFile files1
               (sanitize_filename u2 (sanitize_filename u1 title ++ ".mp3".data))) orig
             ++ [sanitize_filename u2 (sanitize_filename u1 title ++ ".mp3".data)],
             some (sanitize_filename u2 (sanitize_filename u1 title ++ ".mp3".data)))) := by
  unfold locate_and_rename
  rw [h]

theorem prov_length {u : List Char} (hu : hexUid u) :
    (provisional_name u ("Same Title".data)).length = 23 := by
  unfold provisional_name
  rw [List.length_append, hu.1]
  rfl

theorem prov_ne_final {u : List Char} (hu : hexUid u) :
    provisional_name u ("Same Title".data) ≠ "Same Title.mp3".data := by
  intro h
  have := congrArg List.length h
  rw [prov_length hu] at this
  exact absurd this (by decide)

theorem job_first (uA u1 u2 : List Char) (hA : hexUid uA) :
    run_download_job_mp3 uA u1 u2 [] ("Same Title".data) =
      (["Same Title.mp3".data], some ("Same Title.mp3".data)) := by
  unfold run_download_job_mp3
  have hfil : (([] : List (List Char)) ++ [provisional_name uA ("Same Title".data)]).filter
      (fun f => isPre uA f) = provisional_name uA ("Same Title".data) :: [] := by
    rw [List.nil_append, List.filter_cons]
    simp only [provisional_name, isPre_append_self, if_pos]
    rfl
  rw [locate_cons uA u1 u2 _ _ _ _ hfil, sanitize_title_same u1, sanitize_final_same u2,
    if_neg (prov_ne_final hA)]
  rw [List.nil_append]
  have h1 : eraseFile [provisional_name uA ("Same Title".data)] ("Same Title.mp3".data)
      = [provisional_name uA ("Same Title".data)] := by
    unfold eraseFile
    rw [if_neg (prov_ne_final hA)]
    rfl
  rw [h1]
  have h2 : eraseFile [provisional_name uA ("Same Title".data)]
      (provisional_name uA ("Same Title".data)) = [] := by
    unfold eraseFile
    rw [if_pos rfl]
  rw [h2]
  rfl

theorem job_second (uB u3 u4 : List Char) (hB : hexUid uB) :
    run_download_job_mp3 uB u3 u4 ["Same Title.mp3".data] ("Same Title".data) =
      (["Same Title.mp3".data], some ("Same Title.mp3".data)) := by
  unfold run_download_job_mp3
  have hnotpre : isPre uB ("Same Title.mp3".data) = false := by
    rw [show ("Same Title.mp3".data) = 'S' :: ("ame Title.mp3".data) from rfl]
    exact hexUid_not_pre hB (by decide)
  have hfil : (["Same Title.mp3".data] ++ [provisional_name uB ("Same Title".data)]).filter
      (fun f => isPre uB f) = provisional_name uB ("Same Title".data) :: [] := by
    rw [List.cons_append, List.nil_append, List.filter_cons, List.filter_cons]
    simp only [hnotpre, provisional_name, isPre_append_self, if_pos]
    rfl
  rw [locate_cons uB u3 u4 _ _ _ _ hfil, sanitize_title_same u3, sanitize_final_same u4,
    if_neg (prov_ne_final hB)]
  have h1 : eraseFile (["Same Title.mp3".data] ++ [provisional_name uB ("Same Title".data)])
      ("Same Title.mp3".data) = [provisional_name uB ("Same Title".data)] := by
    rw [List.cons_append, List.nil_append]
    unfold eraseFile
    rw [if_pos rfl]
  rw [h1]
  have h2 : eraseFile [provisional_name uB ("Same Title".data)]
      (provisional_name uB ("Same Title".data)) = [] := by
    unfold eraseFile
    rw [if_pos rfl]
  rw [h2]
  rfl

/-- C2, amended.  Two sequential `mp3` jobs for the same URL and format do
mint distinct unique ids and hence write distinct provisional files, but the
final artifact name is derived from the title alone, so when both jobs
resolve to the same title the second job's delete-then-rename replaces the
first job's artifact: after both jobs the scratch directory holds a single
artifact under that display name (last writer wins), not two. -/
theorem C2_sequential_jobs (uA uB u1 u2 u3 u4 : List Char)
    (hA : hexUid uA) (hB : hexUid uB) (hne : uA ≠ uB) :
    provisional_name uA ("Same Title".data) ≠ provisional_name uB ("Same Title".data) ∧
    run_download_job_mp3 uA u1 u2 [] ("Same Title".data) =
      (["Same Title.mp3".data], some ("Same Title.mp3".data)) ∧
    run_download_job_mp3 uB u3 u4 ["Same Title.mp3".data] ("Same Title".data) =
      (["Same Title.mp3".data], some ("Same Title.mp3".data)) := by
  refine ⟨?_, job_first uA u1 u2 hA, job_second uB u3 u4 hB⟩
  intro h
  unfold provisional_name at h
  exact hne (List.append_inj h (hA.1.trans hB.1.symm)).1

/-- Witness for C2 at concrete distinct unique ids. -/
theorem C2_sequential_jobs_witness :
    provisional_name ("aaaa1111".data) ("Same Title".data) ≠
      provisional_name ("bbbb2222".data) ("Same Title".data) ∧
    run_download_job_mp3 ("aaaa1111".data) ("cc00cc00".data) ("dd00dd00".data) []
        ("Same Title".data) =
      (["Same Title.mp3".data], some ("Same Title.mp3".data)) ∧
    run_download_job_mp3 ("bbbb2222".data) ("ee00ee00".data) ("ff00ff00".data)
        ["Same Title.mp3".data] ("Same Title".data) =
      (["Same Title.mp3".data], some ("Same Title.mp3".data)) :=
  C2_sequential_jobs ("aaaa1111".data) ("bbbb2222".data) ("cc00cc00".data)
    ("dd00dd00".data) ("ee00ee00".data) ("ff00ff00".data)
    (by decide) (by decide) (by decide)

/-- C2, counterexample to the claim as stated: two sequential jobs with the
same URL/format and identical source titles leave exactly one artifact in
the scratch directory — the second job reports the same display filename and
its delete-then-rename destroys the first job's artifact before any
eviction. -/
theorem C2_counterexample :
    (run_download_job_mp3 ("bbbb2222".data) ("ee00ee00".data) ("ff00ff00".data)
        (run_download_job_mp3 ("aaaa1111".data) ("cc00cc00".data) ("dd00dd00".data) []
          ("Same Title".data)).1
        ("Same Title".data)).1 = ["Same Title.mp3".data] ∧
    (run_download_job_mp3 ("aaaa1111".data) ("cc00cc00".data) ("dd00dd00".data) []
        ("Same Title".data)).2 =
      (run_download_job_mp3 ("bbbb2222".data) ("ee00ee00".data) ("ff00ff00".data)
        ["Same Title.mp3".data] ("Same Title".data)).2 := by
  refine ⟨?_, ?_⟩ <;> decide
